import Mathlib

/-!
Verification of the `gosuslugi-api` row-normalization and retrieval core
(`gosuslugi_api/utils.py` and `gosuslugi_api/clients.py`) against its
natural-language specification.

The Python code is shallowly embedded: spreadsheet cell values are
`Option String` (a `None` cell or a text cell), `datetime` values are a
record of calendar components, fallible code returns `Except`, and the
lazy generators are modelled as functions producing a list of results or
the first error raised while producing them.
-/

namespace Gosuslugi

/-! ### Python string primitives

`str.strip()` removes leading and trailing whitespace; the whitespace
characters occurring in the modelled data are the ASCII ones.
`str.lower()` is modelled on the alphabets the data carries: ASCII
letters and the Russian Cyrillic letters А–Я and Ё. -/

def isPySpace (c : Char) : Bool :=
  c = ' ' || c = '\t' || c = '\n' || c = '\r' || c = '\x0b' || c = '\x0c'

def pyLowerChar (c : Char) : Char :=
  if 'A' ≤ c ∧ c ≤ 'Z' then Char.ofNat (c.toNat + 32)
  else if 'А' ≤ c ∧ c ≤ 'Я' then Char.ofNat (c.toNat + 32)
  else if c = 'Ё' then 'ё'
  else c

def pyStripList (l : List Char) : List Char :=
  ((l.dropWhile isPySpace).reverse.dropWhile isPySpace).reverse

def pyStrip (s : String) : String := ⟨pyStripList s.data⟩

def pyLower (s : String) : String := ⟨s.data.map pyLowerChar⟩

/-- `s.strip().lower()`, the normalization applied to every string field. -/
def pyNormalize (s : String) : String := pyLower (pyStrip s)

/-- Normalization of a cell value: a `None` cell is left alone, a string
cell is stripped and lowercased (the `isinstance(field_value, str)` guard
in `__post_init__`). -/
def normCell (v : Option String) : Option String := v.map pyNormalize

/-- Python truthiness of a cell value: `None` and `''` are falsy. -/
def pyTruthyCell (v : Option String) : Bool :=
  match v with
  | none => false
  | some s => s ≠ ""

/-! ### Python `datetime` -/

structure PyDateTime where
  year : Nat
  month : Nat
  day : Nat
  hour : Nat
  minute : Nat
  second : Nat
  microsecond : Nat
  deriving DecidableEq, Repr

/-- `datetime.max` = 9999-12-31 23:59:59.999999. -/
def datetimeMax : PyDateTime := ⟨9999, 12, 31, 23, 59, 59, 999999⟩

def isLeapYear (y : Nat) : Bool :=
  y % 4 = 0 && (y % 100 ≠ 0 || y % 400 = 0)

def daysInMonth (y m : Nat) : Nat :=
  if m = 2 then (if isLeapYear y then 29 else 28)
  else if m = 4 || m = 6 || m = 9 || m = 11 then 30
  else 31

/-! ### `datetime.strptime` for the two formats of `utils.py`

CPython's `_strptime` compiles `%d`/`%m` to the regex alternation
`(3[01]|[12]\d|0[1-9]|[1-9])`, `%H` to `(2[0-3]|[0-1]\d|\d)`, `%M`/`%S`
to `([0-5]\d|\d)` and `%Y` to four digits; a run of whitespace in the
format matches one or more whitespace characters, the whole string must
be consumed, and the matched components must form a valid calendar date
(year at least 1, day within the month). Because every numeric field
here is followed by a non-digit literal (or the end of the string), the
greedy two-digit-first reading below coincides with the regex. -/

def digitVal (c : Char) : Nat := c.toNat - 48

/-- Parse a one- or two-digit numeric field whose two-digit values range
over `lo..hi` and whose one-digit values range over `lo..9`. -/
def parseNumField (lo hi : Nat) : List Char → Option (Nat × List Char)
  | c1 :: c2 :: rest =>
    if c1.isDigit && c2.isDigit then
      let v := 10 * digitVal c1 + digitVal c2
      if lo ≤ v && v ≤ hi then some (v, rest)
      else if lo ≤ digitVal c1 then some (digitVal c1, c2 :: rest)
      else none
    else if c1.isDigit then
      if lo ≤ digitVal c1 then some (digitVal c1, c2 :: rest) else none
    else none
  | [c1] =>
    if c1.isDigit && lo ≤ digitVal c1 then some (digitVal c1, []) else none
  | [] => none

def parseLit (c : Char) : List Char → Option (List Char)
  | c' :: rest => if c' = c then some rest else none
  | [] => none

/-- A whitespace run in the format matches one or more whitespace characters. -/
def parseSpaces : List Char → Option (List Char)
  | c :: rest => if isPySpace c then some (rest.dropWhile isPySpace) else none
  | [] => none

def parseYear4 : List Char → Option (Nat × List Char)
  | a :: b :: c :: d :: rest =>
    if a.isDigit && b.isDigit && c.isDigit && d.isDigit then
      some (1000 * digitVal a + 100 * digitVal b + 10 * digitVal c + digitVal d, rest)
    else none
  | _ => none

def validYmd (y m d : Nat) : Bool := 1 ≤ y && d ≤ daysInMonth y m

/-- `datetime.strptime(s, '%d.%m.%Y')`. -/
def strptimeDate (s : String) : Option PyDateTime := do
  let (d, r1) ← parseNumField 1 31 s.data
  let r2 ← parseLit '.' r1
  let (m, r3) ← parseNumField 1 12 r2
  let r4 ← parseLit '.' r3
  let (y, r5) ← parseYear4 r4
  if r5 = [] && validYmd y m d then some ⟨y, m, d, 0, 0, 0, 0⟩ else none

/-- `datetime.strptime(s, '%d.%m.%Y %H:%M:%S')`. -/
def strptimeDateTime (s : String) : Option PyDateTime := do
  let (d, r1) ← parseNumField 1 31 s.data
  let r2 ← parseLit '.' r1
  let (m, r3) ← parseNumField 1 12 r2
  let r4 ← parseLit '.' r3
  let (y, r5) ← parseYear4 r4
  let r6 ← parseSpaces r5
  let (hh, r7) ← parseNumField 0 23 r6
  let r8 ← parseLit ':' r7
  let (mi, r9) ← parseNumField 0 59 r8
  let r10 ← parseLit ':' r9
  let (ss, r11) ← parseNumField 0 59 r10
  if r11 = [] && validYmd y m d then some ⟨y, m, d, hh, mi, ss, 0⟩ else none

example : strptimeDate "01.02.2020" = some ⟨2020, 2, 1, 0, 0, 0, 0⟩ := by decide
example : strptimeDate "31.02.2020" = none := by decide
example : strptimeDate "2020-01-02" = none := by decide
example : strptimeDateTime "01.02.2020 03:04:05" = some ⟨2020, 2, 1, 3, 4, 5, 0⟩ := by decide
example : strptimeDateTime "01.02.2020" = none := by decide
example : pyNormalize "  Размещена  " = "размещена" := by decide
example : pyNormalize "не размещена" = "не размещена" := by decide

/-! ### `utils.py`: spreadsheet model

An `openpyxl` cell carries a value (`Option String` here) and knows the
physical row index it sits on (`row[0].row` in the source); a worksheet
is its list of physical rows, top to bottom; a workbook is its list of
worksheets. -/

structure Row where
  idx : Nat
  cells : List (Option String)
  deriving DecidableEq, Repr

structure Worksheet where
  rows : List Row
  deriving DecidableEq, Repr

structure Workbook where
  worksheets : List Worksheet
  deriving DecidableEq, Repr

/-- Errors raised while producing rows: `WorksheetAbsentError`, the
`IndexError` of `row[0]` on an empty row, the `TypeError` of calling the
dataclass constructor with too many positional arguments, and the
`ValueError` of `datetime.strptime` on a malformed date. -/
inductive RowsError where
  | worksheetAbsent
  | indexError
  | typeError
  | dateFormat
  deriving DecidableEq, Repr

def headerMarker : String := "номер лицензии"

def inRegisterMark : String := "размещена"

def activeLicenseStatus : String := "действующая"

/-- The constructor arguments of the `LicensesFileRow` dataclass, with
its default values: `''` for the string fields, `None` for the four date
fields and the flag. -/
structure RawLicenseArgs where
  number_in_file : Nat
  house_fias_id : Option String
  license_number : Option String := some ""
  license_date : Option String := some ""
  license_status : Option String := some ""
  license_included_date : Option String := some ""
  order_number : Option String := some ""
  order_date : Option String := some ""
  lisence_juristic_address : Option String := some ""
  license_holder_uid : Option String := some ""
  additional_info : Option String := some ""
  license_holder_name : Option String := some ""
  inn : Option String := some ""
  ogrn : Option String := some ""
  mkd_address : Option String := some ""
  gos_uslugi_house_code : Option String := some ""
  mkd_included_register_date : Option String := none
  mkd_begin_management_date : Option String := none
  mkd_end_management_date : Option String := none
  mkd_excluded_register_date : Option String := none
  mkd_excluded_reason : Option String := some ""
  state_198_info : Option String := some ""
  is_information_in_register : Option String := none
  deriving DecidableEq, Repr

/-- A fully constructed `LicensesFileRow` after `__post_init__` ran:
string fields hold their (possibly `None`) normalized cell text, the
four `mkd_*` fields hold actual datetimes and the flag an actual
boolean. -/
structure LicensesFileRow where
  number_in_file : Nat
  house_fias_id : Option String
  license_number : Option String
  license_date : Option String
  license_status : Option String
  license_included_date : Option String
  order_number : Option String
  order_date : Option String
  lisence_juristic_address : Option String
  license_holder_uid : Option String
  additional_info : Option String
  license_holder_name : Option String
  inn : Option String
  ogrn : Option String
  mkd_address : Option String
  gos_uslugi_house_code : Option String
  mkd_included_register_date : PyDateTime
  mkd_begin_management_date : PyDateTime
  mkd_end_management_date : PyDateTime
  mkd_excluded_register_date : PyDateTime
  mkd_excluded_reason : Option String
  state_198_info : Option String
  is_information_in_register : Bool
  deriving DecidableEq, Repr

/-- `__post_init__`'s treatment of one date field: normalize if it is a
string, default to `datetime.max` when falsy (`None` or `''`), otherwise
`strptime` it with the field's format, a parse failure being fatal. -/
def dateFieldValue (parse : String → Option PyDateTime) (v : Option String) :
    Except RowsError PyDateTime :=
  match normCell v with
  | none => .ok datetimeMax
  | some s =>
    if s = "" then .ok datetimeMax
    else
      match parse s with
      | some d => .ok d
      | none => .error .dateFormat

/-- `LicensesFileRow.__post_init__`: every string-valued field is
stripped and lowercased; the two `datetime_format_fields` are parsed
with `'%d.%m.%Y %H:%M:%S'` and the two `date_format_fields` with
`'%d.%m.%Y'` (blank cells defaulting to `datetime.max`); the field
`is_information_in_register` becomes the comparison of its own
normalized value with the literal `in_register_mark`. Fields are
processed in dataclass declaration order, so the first malformed date in
that order raises; every such error is the same `ValueError`, modelled
as `.dateFormat`. -/
def postInit (a : RawLicenseArgs) : Except RowsError LicensesFileRow :=
  match dateFieldValue strptimeDateTime a.mkd_included_register_date with
  | .error e => .error e
  | .ok d1 =>
    match dateFieldValue strptimeDate a.mkd_begin_management_date with
    | .error e => .error e
    | .ok d2 =>
      match dateFieldValue strptimeDate a.mkd_end_management_date with
      | .error e => .error e
      | .ok d3 =>
        match dateFieldValue strptimeDateTime a.mkd_excluded_register_date with
        | .error e => .error e
        | .ok d4 =>
          .ok {
            number_in_file := a.number_in_file
            house_fias_id := normCell a.house_fias_id
            license_number := normCell a.license_number
            license_date := normCell a.license_date
            license_status := normCell a.license_status
            license_included_date := normCell a.license_included_date
            order_number := normCell a.order_number
            order_date := normCell a.order_date
            lisence_juristic_address := normCell a.lisence_juristic_address
            license_holder_uid := normCell a.license_holder_uid
            additional_info := normCell a.additional_info
            license_holder_name := normCell a.license_holder_name
            inn := normCell a.inn
            ogrn := normCell a.ogrn
            mkd_address := normCell a.mkd_address
            gos_uslugi_house_code := normCell a.gos_uslugi_house_code
            mkd_included_register_date := d1
            mkd_begin_management_date := d2
            mkd_end_management_date := d3
            mkd_excluded_register_date := d4
            mkd_excluded_reason := normCell a.mkd_excluded_reason
            state_198_info := normCell a.state_198_info
            is_information_in_register :=
              normCell a.is_information_in_register == some inRegisterMark
          }

/-- Binding of the positional cell values (after dropping the two
trailing cells and prepending the `house_fias_id` stub) to the dataclass
fields, missing positions taking the dataclass defaults. -/
def argsOfCells (idx : Nat) (vals : List (Option String)) : RawLicenseArgs where
  number_in_file := idx
  house_fias_id := some ""
  license_number := vals.getD 0 (some "")
  license_date := vals.getD 1 (some "")
  license_status := vals.getD 2 (some "")
  license_included_date := vals.getD 3 (some "")
  order_number := vals.getD 4 (some "")
  order_date := vals.getD 5 (some "")
  lisence_juristic_address := vals.getD 6 (some "")
  license_holder_uid := vals.getD 7 (some "")
  additional_info := vals.getD 8 (some "")
  license_holder_name := vals.getD 9 (some "")
  inn := vals.getD 10 (some "")
  ogrn := vals.getD 11 (some "")
  mkd_address := vals.getD 12 (some "")
  gos_uslugi_house_code := vals.getD 13 (some "")
  mkd_included_register_date := vals.getD 14 none
  mkd_begin_management_date := vals.getD 15 none
  mkd_end_management_date := vals.getD 16 none
  mkd_excluded_register_date := vals.getD 17 none
  mkd_excluded_reason := vals.getD 18 (some "")
  state_198_info := vals.getD 19 (some "")
  is_information_in_register := vals.getD 20 none

/-- `row[0]`: `IndexError` on a row with no cells. -/
def firstCellValue (r : Row) : Except RowsError (Option String) :=
  match r.cells with
  | [] => .error .indexError
  | c :: _ => .ok c

/-- `_make_gis_gkh_row`: capture the physical row index from `row[0]`,
drop the two trailing cell values (`values_from_all_cells[:-2]`),
prepend the empty `house_fias_id` stub and construct a
`LicensesFileRow`; more positional values than dataclass fields is a
`TypeError`. -/
def makeGisGkhRow (r : Row) : Except RowsError LicensesFileRow :=
  match firstCellValue r with
  | .error e => .error e
  | .ok _ =>
    let vals := r.cells.take (r.cells.length - 2)
    if vals.length > 21 then .error .typeError
    else postInit (argsOfCells r.idx vals)

/-- The header test of `_skip_header_in_license_rows` on a first cell:
`cell_value and cell_value.strip().lower() == 'номер лицензии'`. -/
def headerCellMatches (c : Option String) : Bool :=
  match c with
  | none => false
  | some s => s ≠ "" && pyNormalize s == headerMarker

/-- `_skip_header_in_license_rows`: consume rows from the shared
iterator up to and including the first row whose first cell matches the
header marker; with no match the whole sequence is consumed. -/
def skipHeaderRows : List Row → Except RowsError (List Row)
  | [] => .ok []
  | r :: rs =>
    match r.cells with
    | [] => .error .indexError
    | c :: _ => if headerCellMatches c then .ok rs else skipHeaderRows rs

/-- The `for row in rows: yield _make_gis_gkh_row(row)` loop: the list
of produced rows, or the first error raised while producing them. -/
def mapRowsExcept : List Row → Except RowsError (List LicensesFileRow)
  | [] => .ok []
  | r :: rs =>
    match makeGisGkhRow r with
    | .error e => .error e
    | .ok x =>
      match mapRowsExcept rs with
      | .error e => .error e
      | .ok xs => .ok (x :: xs)

instance {ε α : Type} [DecidableEq ε] [DecidableEq α] : DecidableEq (Except ε α) := by
  intro a b
  cases a <;> cases b
  case error.error e e' => exact decidable_of_iff (e = e') (by simp)
  case ok.ok x x' => exact decidable_of_iff (x = x') (by simp)
  all_goals exact isFalse (by simp)

structure Licenses where
  region_name : String
  workbook : Workbook
  deriving DecidableEq, Repr

/-- `Licenses.rows`: fail with `WorksheetAbsentError` when the workbook
has no worksheet, otherwise skip the header rows of the first worksheet
and map every remaining row through `_make_gis_gkh_row`. -/
def Licenses.rows (lc : Licenses) : Except RowsError (List LicensesFileRow) :=
  match lc.workbook.worksheets with
  | [] => .error .worksheetAbsent
  | ws :: _ =>
    match skipHeaderRows ws.rows with
    | .error e => .error e
    | .ok rest => mapRowsExcept rest

example :
    (Licenses.rows ⟨"r", ⟨[⟨[⟨1, [some "x"]⟩, ⟨2, [some "Номер лицензии"]⟩,
        ⟨3, [some "Л-01", some "a", some "b"]⟩]⟩]⟩⟩).map
      (fun l => l.map (fun r => (r.number_in_file, r.license_number)))
      = .ok [(3, some "л-01")] := by decide

/-! ### `clients.py`: the license retrieval pipeline

The static region reference table `REGION_CODES_AND_NAMES` lives in
`consts.py` and is treated as a parameter `table : Nat → Option String`
(code → canonical name, `none` when the code is absent). The network is
an oracle: the uid-lookup endpoint answers per region code, the
archive-download endpoint answers per (uid, file name). Each model
function also returns the list of HTTP requests it issued, so that
"before any network activity" is statable. -/

inductive ClientError where
  | regionCodeIsAbsent (code : Nat)
  | keyError
  deriving DecidableEq, Repr

inductive NetRequest where
  | licenseUid (urlRegionCode : String)
  | downloadInfo (uid : String) (fileName : String)
  deriving DecidableEq, Repr

structure UidResponse where
  status : Nat
  text : String
  deriving DecidableEq, Repr

/-- An archive member: its name in the zip and the workbook
`load_workbook` yields from its bytes. -/
structure ZipMember where
  name : String
  workbook : Workbook
  deriving DecidableEq, Repr

/-- `ZipFile(...).namelist()` order of one archive's members. -/
structure ZipArchive where
  members : List ZipMember
  deriving DecidableEq, Repr

structure DownloadResponse where
  status : Nat
  content : ZipArchive
  deriving DecidableEq, Repr

/-- The URL formatting of `_get_license_uids`: codes below 10 gain a
leading zero. -/
def formatRegionCode (c : Nat) : String :=
  if c < 10 then "0" ++ toString c else toString c

/-- Python `dict` assignment `d[k] = v`: replace the value of an
existing key, otherwise append the new binding. -/
def dictInsert {α : Type} (k : String) (v : α) :
    List (String × α) → List (String × α)
  | [] => [(k, v)]
  | (k', v') :: rest =>
    if k' = k then (k, v) :: rest else (k', v') :: dictInsert k v rest

def hasKey {α : Type} (k : String) (m : List (String × α)) : Bool :=
  m.any (fun p => p.1 == k)

/-- The validation loop at the top of `get_licenses`: raise
`RegionCodeIsAbsentError` naming the first requested code missing from
the reference table. -/
def validateRegionCodes (table : Nat → Option String) :
    List Nat → Except ClientError Unit
  | [] => .ok ()
  | c :: cs =>
    match table c with
    | none => .error (.regionCodeIsAbsent c)
    | some _ => validateRegionCodes table cs

/-- `_get_license_uids`, iterating the requested codes with the uid
dict built so far: each code issues one GET; a non-200 response is
logged and the region skipped; on 200 the region's canonical name
(`REGION_CODES_AND_NAMES[region_code]`, a `KeyError` if absent) maps to
the response text. -/
def getLicenseUidsAux (table : Nat → Option String) (resp : Nat → UidResponse) :
    List Nat → List (String × String) →
    Except ClientError (List (String × String)) × List NetRequest
  | [], acc => (.ok acc, [])
  | c :: cs, acc =>
    let req := NetRequest.licenseUid (formatRegionCode c)
    let r := resp c
    if r.status ≠ 200 then
      let (res, t) := getLicenseUidsAux table resp cs acc
      (res, req :: t)
    else
      match table c with
      | none => (.error .keyError, [req])
      | some name =>
        let (res, t) := getLicenseUidsAux table resp cs (dictInsert name r.text acc)
        (res, req :: t)

def getLicenseUids (table : Nat → Option String) (resp : Nat → UidResponse)
    (codes : List Nat) :
    Except ClientError (List (String × String)) × List NetRequest :=
  getLicenseUidsAux table resp codes []

/-- `_get_licenses_info`, iterating the (region name, uid) items with
the archive dict built so far: each entry issues one download; a
non-200 response is logged and the region skipped; on 200 the region
maps to the archive bytes. -/
def getLicensesInfoAux (dl : String → String → DownloadResponse) :
    List (String × String) → List (String × ZipArchive) →
    List (String × ZipArchive) × List NetRequest
  | [], acc => (acc, [])
  | (region, uid) :: rest, acc =>
    let req := NetRequest.downloadInfo uid region
    let r := dl uid region
    let acc' := if r.status ≠ 200 then acc else dictInsert region r.content acc
    let (res, t) := getLicensesInfoAux dl rest acc'
    (res, req :: t)

def getLicensesInfo (dl : String → String → DownloadResponse)
    (uids : List (String × String)) :
    List (String × ZipArchive) × List NetRequest :=
  getLicensesInfoAux dl uids []

/-- Python `str.endswith`. -/
def pyEndsWith (s suffix : String) : Bool :=
  List.isSuffixOf suffix.data s.data

/-- `_get_workbooks_from_licenses_info`: for each region's archive, one
`Licenses` handle is yielded per member whose name ends in `.xlsx`, in
`namelist()` order. -/
def getWorkbooksFromLicensesInfo (info : List (String × ZipArchive)) :
    List Licenses :=
  info.flatMap (fun p =>
    (p.2.members.filter (fun m => pyEndsWith m.name ".xlsx")).map
      (fun m => { region_name := p.1, workbook := m.workbook }))

/-- `get_licenses`: validate every requested code against the reference
table before anything else, then look up uids, download the archives
and extract the workbooks. -/
def getLicenses (table : Nat → Option String) (resp : Nat → UidResponse)
    (dl : String → String → DownloadResponse) (codes : List Nat) :
    Except ClientError (List Licenses) × List NetRequest :=
  match validateRegionCodes table codes with
  | .error e => (.error e, [])
  | .ok _ =>
    match getLicenseUids table resp codes with
    | (.error e, t) => (.error e, t)
    | (.ok uids, t1) =>
      let (info, t2) := getLicensesInfo dl uids
      (.ok (getWorkbooksFromLicensesInfo info), t1 ++ t2)

/-! ### General lemmas -/

/-- Field-by-field description of a successful `__post_init__`. -/
theorem postInit_ok_elim (a : RawLicenseArgs) (r : LicensesFileRow)
    (h : postInit a = .ok r) :
    dateFieldValue strptimeDateTime a.mkd_included_register_date
        = .ok r.mkd_included_register_date ∧
    dateFieldValue strptimeDate a.mkd_begin_management_date
        = .ok r.mkd_begin_management_date ∧
    dateFieldValue strptimeDate a.mkd_end_management_date
        = .ok r.mkd_end_management_date ∧
    dateFieldValue strptimeDateTime a.mkd_excluded_register_date
        = .ok r.mkd_excluded_register_date ∧
    r.number_in_file = a.number_in_file ∧
    r.house_fias_id = normCell a.house_fias_id ∧
    r.license_number = normCell a.license_number ∧
    r.license_date = normCell a.license_date ∧
    r.license_status = normCell a.license_status ∧
    r.license_included_date = normCell a.license_included_date ∧
    r.order_number = normCell a.order_number ∧
    r.order_date = normCell a.order_date ∧
    r.lisence_juristic_address = normCell a.lisence_juristic_address ∧
    r.license_holder_uid = normCell a.license_holder_uid ∧
    r.additional_info = normCell a.additional_info ∧
    r.license_holder_name = normCell a.license_holder_name ∧
    r.inn = normCell a.inn ∧
    r.ogrn = normCell a.ogrn ∧
    r.mkd_address = normCell a.mkd_address ∧
    r.gos_uslugi_house_code = normCell a.gos_uslugi_house_code ∧
    r.mkd_excluded_reason = normCell a.mkd_excluded_reason ∧
    r.state_198_info = normCell a.state_198_info ∧
    r.is_information_in_register
        = (normCell a.is_information_in_register == some inRegisterMark) := by
  unfold postInit at h
  cases h1 : dateFieldValue strptimeDateTime a.mkd_included_register_date <;>
    rw [h1] at h
  case error => cases h
  case ok d1 =>
  cases h2 : dateFieldValue strptimeDate a.mkd_begin_management_date <;>
    rw [h2] at h
  case error => cases h
  case ok d2 =>
  cases h3 : dateFieldValue strptimeDate a.mkd_end_management_date <;>
    rw [h3] at h
  case error => cases h
  case ok d3 =>
  cases h4 : dateFieldValue strptimeDateTime a.mkd_excluded_register_date <;>
    rw [h4] at h
  case error => cases h
  case ok d4 =>
  injection h with h
  subst h
  exact ⟨rfl, rfl, rfl, rfl, rfl, rfl, rfl, rfl, rfl, rfl, rfl, rfl, rfl,
    rfl, rfl, rfl, rfl, rfl, rfl, rfl, rfl, rfl, rfl⟩

/-- The row whose cells were all absent (dataclass defaults). -/
def defaultRow (n : Nat) : LicensesFileRow where
  number_in_file := n
  house_fias_id := some ""
  license_number := some ""
  license_date := some ""
  license_status := some ""
  license_included_date := some ""
  order_number := some ""
  order_date := some ""
  lisence_juristic_address := some ""
  license_holder_uid := some ""
  additional_info := some ""
  license_holder_name := some ""
  inn := some ""
  ogrn := some ""
  mkd_address := some ""
  gos_uslugi_house_code := some ""
  mkd_included_register_date := datetimeMax
  mkd_begin_management_date := datetimeMax
  mkd_end_management_date := datetimeMax
  mkd_excluded_register_date := datetimeMax
  mkd_excluded_reason := some ""
  state_198_info := some ""
  is_information_in_register := false

/-! ### Claim C1 -/

/-- C1 (counterexample): a row whose `license_status` cell is
"  Размещена  " while the cell bound to `is_information_in_register` was
absent is constructed with a normalized `license_status` equal to the
marker yet a `false` flag — the flag is not derived from
`license_status`, refuting the claimed equivalence. -/
theorem licenseStatus_marker_with_false_flag :
    (postInit { number_in_file := 4,
                house_fias_id := some "",
                license_status := some "  Размещена  " }).map
      (fun r => (r.license_status, r.is_information_in_register))
      = .ok (some "размещена", false) := by decide

/-- C1 (amended): for every constructed `LicenseRow`, the field
`is_information_in_register` is true iff the normalized (trimmed,
lowercased) text of the raw cell bound to that very field equals the
literal marker "размещена"; the `license_status` field plays no role in
the derivation. -/
theorem inRegisterFlag_iff_own_cell_marker (a : RawLicenseArgs)
    (r : LicensesFileRow) (h : postInit a = .ok r) :
    r.is_information_in_register = true ↔
      normCell a.is_information_in_register = some inRegisterMark := by
  have hflag := (postInit_ok_elim a r h).2.2.2.2.2.2.2.2.2.2.2.2.2.2.2.2.2.2.2.2.2.2
  rw [hflag]
  exact ⟨fun hb => by exact eq_of_beq hb, fun he => by rw [he]; exact beq_self_eq_true _⟩

theorem inRegisterFlag_iff_own_cell_marker_witness :
    (postInit { number_in_file := 4,
                house_fias_id := some "",
                is_information_in_register := some "  Размещена  " }
      = .ok { (defaultRow 4) with is_information_in_register := true }) ∧
    (({ (defaultRow 4) with is_information_in_register := true
          : LicensesFileRow }).is_information_in_register = true ↔
      normCell (some "  Размещена  ") = some inRegisterMark) := by
  have h : postInit { number_in_file := 4,
                      house_fias_id := some "",
                      is_information_in_register := some "  Размещена  " }
      = .ok { (defaultRow 4) with is_information_in_register := true } := by
    decide
  exact ⟨h, inRegisterFlag_iff_own_cell_marker _ _ h⟩

/-! ### Date field lemmas -/

/-- The blank test of `__post_init__` on a date cell: after the string
normalization, `if field_value:` is false exactly for `None` and `''`. -/
def isBlankCell (v : Option String) : Bool :=
  (normCell v).getD "" == ""

/-- A non-blank date cell whose normalized text the format rejects. -/
def dateCellMalformed (parse : String → Option PyDateTime)
    (v : Option String) : Prop :=
  ∃ s, normCell v = some s ∧ s ≠ "" ∧ parse s = none

theorem strptimeDate_empty : strptimeDate "" = none := by decide

theorem strptimeDateTime_empty : strptimeDateTime "" = none := by decide

theorem dateFieldValue_none_eq (p : String → Option PyDateTime)
    (v : Option String) (h : normCell v = none) :
    dateFieldValue p v = .ok datetimeMax := by
  unfold dateFieldValue; rw [h]

theorem dateFieldValue_some_eq (p : String → Option PyDateTime)
    (v : Option String) (s : String) (h : normCell v = some s) :
    dateFieldValue p v =
      (if s = "" then .ok datetimeMax
       else
         match p s with
         | some d => .ok d
         | none => .error .dateFormat) := by
  unfold dateFieldValue; rw [h]

theorem dateFieldValue_error_eq (p : String → Option PyDateTime)
    (v : Option String) (e : RowsError)
    (h : dateFieldValue p v = .error e) : e = .dateFormat := by
  cases hn : normCell v
  · rw [dateFieldValue_none_eq p v hn] at h; cases h
  case some s =>
    rw [dateFieldValue_some_eq p v s hn] at h
    by_cases hs : s = ""
    · rw [if_pos hs] at h; cases h
    · rw [if_neg hs] at h
      cases hp : p s <;> rw [hp] at h
      · injection h with h; exact h.symm
      · cases h

theorem dateFieldValue_blank (p : String → Option PyDateTime)
    (v : Option String) (h : isBlankCell v = true) :
    dateFieldValue p v = .ok datetimeMax := by
  unfold isBlankCell at h
  cases hn : normCell v
  · exact dateFieldValue_none_eq p v hn
  case some s =>
    rw [hn] at h
    rw [dateFieldValue_some_eq p v s hn,
      if_pos (show s = "" from eq_of_beq h)]

theorem dateFieldValue_parsed (p : String → Option PyDateTime)
    (v : Option String) (s : String) (d : PyDateTime)
    (hempty : p "" = none) (hn : normCell v = some s) (hp : p s = some d) :
    dateFieldValue p v = .ok d := by
  rw [dateFieldValue_some_eq p v s hn]
  by_cases hs : s = ""
  · subst hs; rw [hempty] at hp; cases hp
  · rw [if_neg hs, hp]

theorem dateFieldValue_malformed (p : String → Option PyDateTime)
    (v : Option String) (h : dateCellMalformed p v) :
    dateFieldValue p v = .error .dateFormat := by
  obtain ⟨s, hn, hs, hp⟩ := h
  rw [dateFieldValue_some_eq p v s hn, if_neg hs, hp]

theorem dateFieldValue_ok_inv (p : String → Option PyDateTime)
    (v : Option String) (d : PyDateTime) (h : dateFieldValue p v = .ok d) :
    d = datetimeMax ∨ ∃ s, normCell v = some s ∧ p s = some d := by
  cases hn : normCell v
  · rw [dateFieldValue_none_eq p v hn] at h
    exact .inl (by injection h with h; exact h.symm)
  case some s =>
    rw [dateFieldValue_some_eq p v s hn] at h
    by_cases hs : s = ""
    · rw [if_pos hs] at h
      exact .inl (by injection h with h; exact h.symm)
    · rw [if_neg hs] at h
      cases hp : p s <;> rw [hp] at h
      · cases h
      · exact .inr ⟨s, rfl, by injection h with h; rw [hp, h]⟩

/-- If any of the four date fields is malformed, `__post_init__` raises
the `strptime` `ValueError`, whichever field fails first. -/
theorem postInit_error_of_malformed (a : RawLicenseArgs)
    (h : dateCellMalformed strptimeDateTime a.mkd_included_register_date ∨
         dateCellMalformed strptimeDate a.mkd_begin_management_date ∨
         dateCellMalformed strptimeDate a.mkd_end_management_date ∨
         dateCellMalformed strptimeDateTime a.mkd_excluded_register_date) :
    postInit a = .error .dateFormat := by
  unfold postInit
  cases h1 : dateFieldValue strptimeDateTime a.mkd_included_register_date
  case error e => rw [dateFieldValue_error_eq _ _ _ h1]
  case ok d1 =>
  cases h2 : dateFieldValue strptimeDate a.mkd_begin_management_date
  case error e => rw [dateFieldValue_error_eq _ _ _ h2]
  case ok d2 =>
  cases h3 : dateFieldValue strptimeDate a.mkd_end_management_date
  case error e => rw [dateFieldValue_error_eq _ _ _ h3]
  case ok d3 =>
  cases h4 : dateFieldValue strptimeDateTime a.mkd_excluded_register_date
  case error e => rw [dateFieldValue_error_eq _ _ _ h4]
  case ok d4 =>
  rcases h with hm | hm | hm | hm
  · rw [dateFieldValue_malformed _ _ hm] at h1; cases h1
  · rw [dateFieldValue_malformed _ _ hm] at h2; cases h2
  · rw [dateFieldValue_malformed _ _ hm] at h3; cases h3
  · rw [dateFieldValue_malformed _ _ hm] at h4; cases h4

/-! ### Claim C3 -/

/-- C3: for each of the four `mkd_*` date fields, a blank cell yields
`datetime.max`; a non-blank cell whose normalized text matches the
field's locale format yields exactly the parsed datetime; and a
non-blank cell that does not match makes the row's construction raise
the parse error instead of defaulting. -/
theorem mkd_date_field_policy :
    (∀ a r, postInit a = .ok r →
      (isBlankCell a.mkd_included_register_date = true →
        r.mkd_included_register_date = datetimeMax) ∧
      (isBlankCell a.mkd_begin_management_date = true →
        r.mkd_begin_management_date = datetimeMax) ∧
      (isBlankCell a.mkd_end_management_date = true →
        r.mkd_end_management_date = datetimeMax) ∧
      (isBlankCell a.mkd_excluded_register_date = true →
        r.mkd_excluded_register_date = datetimeMax) ∧
      (∀ s d, normCell a.mkd_included_register_date = some s →
        strptimeDateTime s = some d → r.mkd_included_register_date = d) ∧
      (∀ s d, normCell a.mkd_begin_management_date = some s →
        strptimeDate s = some d → r.mkd_begin_management_date = d) ∧
      (∀ s d, normCell a.mkd_end_management_date = some s →
        strptimeDate s = some d → r.mkd_end_management_date = d) ∧
      (∀ s d, normCell a.mkd_excluded_register_date = some s →
        strptimeDateTime s = some d → r.mkd_excluded_register_date = d)) ∧
    (∀ a, (dateCellMalformed strptimeDateTime a.mkd_included_register_date ∨
           dateCellMalformed strptimeDate a.mkd_begin_management_date ∨
           dateCellMalformed strptimeDate a.mkd_end_management_date ∨
           dateCellMalformed strptimeDateTime a.mkd_excluded_register_date) →
      postInit a = .error .dateFormat) := by
  refine ⟨?_, postInit_error_of_malformed⟩
  intro a r h
  obtain ⟨e1, e2, e3, e4, -⟩ := postInit_ok_elim a r h
  refine ⟨?_, ?_, ?_, ?_, ?_, ?_, ?_, ?_⟩
  · intro hb
    have := (dateFieldValue_blank strptimeDateTime _ hb).symm.trans e1
    injection this with this
    exact this.symm
  · intro hb
    have := (dateFieldValue_blank strptimeDate _ hb).symm.trans e2
    injection this with this
    exact this.symm
  · intro hb
    have := (dateFieldValue_blank strptimeDate _ hb).symm.trans e3
    injection this with this
    exact this.symm
  · intro hb
    have := (dateFieldValue_blank strptimeDateTime _ hb).symm.trans e4
    injection this with this
    exact this.symm
  · intro s d hn hp
    have := (dateFieldValue_parsed strptimeDateTime _ s d
      strptimeDateTime_empty hn hp).symm.trans e1
    injection this with this
    exact this.symm
  · intro s d hn hp
    have := (dateFieldValue_parsed strptimeDate _ s d
      strptimeDate_empty hn hp).symm.trans e2
    injection this with this
    exact this.symm
  · intro s d hn hp
    have := (dateFieldValue_parsed strptimeDate _ s d
      strptimeDate_empty hn hp).symm.trans e3
    injection this with this
    exact this.symm
  · intro s d hn hp
    have := (dateFieldValue_parsed strptimeDateTime _ s d
      strptimeDateTime_empty hn hp).symm.trans e4
    injection this with this
    exact this.symm

theorem mkd_date_field_policy_witness :
    (postInit { number_in_file := 4,
                house_fias_id := some "",
                mkd_begin_management_date := some "01.02.2020" }
      = .ok { (defaultRow 4) with
                mkd_begin_management_date := ⟨2020, 2, 1, 0, 0, 0, 0⟩ }) ∧
    normCell (some "01.02.2020") = some "01.02.2020" ∧
    strptimeDate "01.02.2020" = some ⟨2020, 2, 1, 0, 0, 0, 0⟩ ∧
    ({ (defaultRow 4) with
        mkd_begin_management_date := ⟨2020, 2, 1, 0, 0, 0, 0⟩
        : LicensesFileRow }).mkd_begin_management_date
      = ⟨2020, 2, 1, 0, 0, 0, 0⟩ := by
  have h : postInit { number_in_file := 4,
                      house_fias_id := some "",
                      mkd_begin_management_date := some "01.02.2020" }
      = .ok { (defaultRow 4) with
                mkd_begin_management_date := ⟨2020, 2, 1, 0, 0, 0, 0⟩ } := by
    decide
  refine ⟨h, by decide, by decide, ?_⟩
  exact ((mkd_date_field_policy.1 _ _ h).2.2.2.2.2.1) "01.02.2020"
    ⟨2020, 2, 1, 0, 0, 0, 0⟩ (by decide) (by decide)

/-! ### Claim C6 -/

theorem dateFieldValue_congr (p : String → Option PyDateTime)
    (v v' : Option String) (h : normCell v = normCell v') :
    dateFieldValue p v = dateFieldValue p v' := by
  unfold dateFieldValue; rw [h]

/-- C6: every textual field of a constructed `LicenseRow` — including
the raw-cell ones — carries its cell text trimmed and lowercased, and
the whole construction (in particular the derived boolean and datetime
fields) depends on the raw cells only through their normalized text. -/
theorem text_normalization_policy :
    (∀ a r, postInit a = .ok r →
      r.house_fias_id = normCell a.house_fias_id ∧
      r.license_number = normCell a.license_number ∧
      r.license_date = normCell a.license_date ∧
      r.license_status = normCell a.license_status ∧
      r.license_included_date = normCell a.license_included_date ∧
      r.order_number = normCell a.order_number ∧
      r.order_date = normCell a.order_date ∧
      r.lisence_juristic_address = normCell a.lisence_juristic_address ∧
      r.license_holder_uid = normCell a.license_holder_uid ∧
      r.additional_info = normCell a.additional_info ∧
      r.license_holder_name = normCell a.license_holder_name ∧
      r.inn = normCell a.inn ∧
      r.ogrn = normCell a.ogrn ∧
      r.mkd_address = normCell a.mkd_address ∧
      r.gos_uslugi_house_code = normCell a.gos_uslugi_house_code ∧
      r.mkd_excluded_reason = normCell a.mkd_excluded_reason ∧
      r.state_198_info = normCell a.state_198_info) ∧
    (∀ a a' : RawLicenseArgs,
      a.number_in_file = a'.number_in_file →
      normCell a.house_fias_id = normCell a'.house_fias_id →
      normCell a.license_number = normCell a'.license_number →
      normCell a.license_date = normCell a'.license_date →
      normCell a.license_status = normCell a'.license_status →
      normCell a.license_included_date = normCell a'.license_included_date →
      normCell a.order_number = normCell a'.order_number →
      normCell a.order_date = normCell a'.order_date →
      normCell a.lisence_juristic_address
        = normCell a'.lisence_juristic_address →
      normCell a.license_holder_uid = normCell a'.license_holder_uid →
      normCell a.additional_info = normCell a'.additional_info →
      normCell a.license_holder_name = normCell a'.license_holder_name →
      normCell a.inn = normCell a'.inn →
      normCell a.ogrn = normCell a'.ogrn →
      normCell a.mkd_address = normCell a'.mkd_address →
      normCell a.gos_uslugi_house_code = normCell a'.gos_uslugi_house_code →
      normCell a.mkd_included_register_date
        = normCell a'.mkd_included_register_date →
      normCell a.mkd_begin_management_date
        = normCell a'.mkd_begin_management_date →
      normCell a.mkd_end_management_date
        = normCell a'.mkd_end_management_date →
      normCell a.mkd_excluded_register_date
        = normCell a'.mkd_excluded_register_date →
      normCell a.mkd_excluded_reason = normCell a'.mkd_excluded_reason →
      normCell a.state_198_info = normCell a'.state_198_info →
      normCell a.is_information_in_register
        = normCell a'.is_information_in_register →
      postInit a = postInit a') := by
  constructor
  · intro a r h
    obtain ⟨-, -, -, -, -, hh, g1, g2, g3, g4, g5, g6, g7, g8, g9, g10, g11,
      g12, g13, g14, g15, g16, -⟩ := postInit_ok_elim a r h
    exact ⟨hh, g1, g2, g3, g4, g5, g6, g7, g8, g9, g10, g11, g12, g13, g14,
      g15, g16⟩
  · intro a a' hn hh k1 k2 k3 k4 k5 k6 k7 k8 k9 k10 k11 k12 k13 k14 d1 d2 d3
      d4 k15 k16 kflag
    unfold postInit
    rw [dateFieldValue_congr strptimeDateTime _ _ d1,
      dateFieldValue_congr strptimeDate _ _ d2,
      dateFieldValue_congr strptimeDate _ _ d3,
      dateFieldValue_congr strptimeDateTime _ _ d4,
      hn, hh, k1, k2, k3, k4, k5, k6, k7, k8, k9, k10, k11, k12, k13, k14,
      k15, k16, kflag]

theorem text_normalization_policy_witness :
    (postInit { number_in_file := 7,
                house_fias_id := some "",
                license_status := some "  Размещена  " }
      = .ok { (defaultRow 7) with license_status := some "размещена" }) ∧
    ({ (defaultRow 7) with license_status := some "размещена"
        : LicensesFileRow }).license_status
      = normCell (some "  Размещена  ") := by
  have h : postInit { number_in_file := 7,
                      house_fias_id := some "",
                      license_status := some "  Размещена  " }
      = .ok { (defaultRow 7) with license_status := some "размещена" } := by
    decide
  exact ⟨h, (text_normalization_policy.1 _ _ h).2.2.2.1⟩

/-! ### Claim C10 -/

/-- C10: every successfully constructed `LicenseRow` holds an actual
datetime in each of the four `mkd_*` fields (the parsed cell value or
`datetime.max`) and an actual boolean in `is_information_in_register`,
whatever combination of cells was omitted or `None`; in particular the
all-defaults construction succeeds with the four maxima and `false`. -/
theorem constructed_row_is_fully_typed :
    (∀ a r, postInit a = .ok r →
      (r.mkd_included_register_date = datetimeMax ∨
        ∃ s, normCell a.mkd_included_register_date = some s ∧
          strptimeDateTime s = some r.mkd_included_register_date) ∧
      (r.mkd_begin_management_date = datetimeMax ∨
        ∃ s, normCell a.mkd_begin_management_date = some s ∧
          strptimeDate s = some r.mkd_begin_management_date) ∧
      (r.mkd_end_management_date = datetimeMax ∨
        ∃ s, normCell a.mkd_end_management_date = some s ∧
          strptimeDate s = some r.mkd_end_management_date) ∧
      (r.mkd_excluded_register_date = datetimeMax ∨
        ∃ s, normCell a.mkd_excluded_register_date = some s ∧
          strptimeDateTime s = some r.mkd_excluded_register_date) ∧
      (r.is_information_in_register = true ∨
        r.is_information_in_register = false)) ∧
    (∀ idx, postInit { number_in_file := idx, house_fias_id := some "" }
      = .ok (defaultRow idx)) := by
  constructor
  · intro a r h
    obtain ⟨e1, e2, e3, e4, -⟩ := postInit_ok_elim a r h
    refine ⟨dateFieldValue_ok_inv _ _ _ e1, dateFieldValue_ok_inv _ _ _ e2,
      dateFieldValue_ok_inv _ _ _ e3, dateFieldValue_ok_inv _ _ _ e4, ?_⟩
    exact Bool.eq_false_or_eq_true r.is_information_in_register
  · intro idx
    rfl

theorem constructed_row_is_fully_typed_witness :
    (postInit { number_in_file := 4, house_fias_id := some "" }
      = .ok (defaultRow 4)) ∧
    ((defaultRow 4).mkd_included_register_date = datetimeMax ∨
      ∃ s, normCell ({ number_in_file := 4, house_fias_id := some "" }
          : RawLicenseArgs).mkd_included_register_date = some s ∧
        strptimeDateTime s = some (defaultRow 4).mkd_included_register_date)
    := by
  have h : postInit { number_in_file := 4, house_fias_id := some "" }
      = .ok (defaultRow 4) := by decide
  exact ⟨h, (constructed_row_is_fully_typed.1 _ _ h).1⟩

/-! ### Claim C7 -/

theorem pyNormalize_empty : pyNormalize "" = "" := by decide

theorem makeGisGkhRow_nil (idx : Nat) :
    makeGisGkhRow ⟨idx, []⟩ = .error .indexError := rfl

theorem makeGisGkhRow_cons (idx : Nat) (c : Option String)
    (cs : List (Option String)) :
    makeGisGkhRow ⟨idx, c :: cs⟩ =
      (if ((c :: cs).take ((c :: cs).length - 2)).length > 21 then
        .error .typeError
       else postInit (argsOfCells idx ((c :: cs).take ((c :: cs).length - 2))))
    := rfl

/-- `values_from_all_cells[:-2]` as list surgery: with the two trailing
cells exhibited, the mapped values are exactly the leading cells. -/
theorem makeGisGkhRow_drops_trailing (idx : Nat) (cells : List (Option String))
    (x y : Option String) :
    makeGisGkhRow ⟨idx, cells ++ [x, y]⟩ =
      (if cells.length > 21 then .error .typeError
       else postInit (argsOfCells idx cells)) := by
  cases cells with
  | nil => rfl
  | cons c cs =>
    rw [List.cons_append, makeGisGkhRow_cons]
    have h2 : (c :: (cs ++ [x, y])).length - 2 = (c :: cs).length := by
      simp [List.length_append, List.length_cons]
    have h1 : (c :: (cs ++ [x, y])).take ((c :: (cs ++ [x, y])).length - 2)
        = c :: cs := by
      rw [h2, show c :: (cs ++ [x, y]) = (c :: cs) ++ [x, y] from rfl,
        List.take_left]
    rw [h1]

/-- C7: the two trailing raw cells of a physical row never reach any
field of the constructed `LicenseRow` (replacing them changes nothing),
and the `house_fias_id` placeholder prepended in front of the cell
values leaves every constructed row with `house_fias_id` equal to the
empty string. -/
theorem trailing_cells_dropped_and_fias_stub :
    (∀ idx cells (x y u v : Option String),
      makeGisGkhRow ⟨idx, cells ++ [x, y]⟩
        = makeGisGkhRow ⟨idx, cells ++ [u, v]⟩) ∧
    (∀ row r, makeGisGkhRow row = .ok r → r.house_fias_id = some "") := by
  constructor
  · intro idx cells x y u v
    rw [makeGisGkhRow_drops_trailing, makeGisGkhRow_drops_trailing]
  · intro row r h
    obtain ⟨idx, cells⟩ := row
    cases cells with
    | nil => rw [makeGisGkhRow_nil] at h; cases h
    | cons c cs =>
      rw [makeGisGkhRow_cons] at h
      by_cases hl :
          ((c :: cs).take ((c :: cs).length - 2)).length > 21
      · rw [if_pos hl] at h; cases h
      · rw [if_neg hl] at h
        have hv := (postInit_ok_elim _ _ h).2.2.2.2.2.1
        rw [hv]
        rfl

theorem trailing_cells_dropped_and_fias_stub_witness :
    (makeGisGkhRow ⟨9, [some "a"] ++ [some "x", some "y"]⟩
      = .ok { (defaultRow 9) with license_number := some "a" }) ∧
    ({ (defaultRow 9) with license_number := some "a"
        : LicensesFileRow }).house_fias_id = some "" := by
  have h : makeGisGkhRow ⟨9, [some "a"] ++ [some "x", some "y"]⟩
      = .ok { (defaultRow 9) with license_number := some "a" } := by decide
  exact ⟨h, trailing_cells_dropped_and_fias_stub.2 _ _ h⟩

/-! ### Claim C9 -/

/-- C9: a workbook with zero worksheets makes row production fail with
the `WorksheetAbsentError`, and consequently no `LicenseRow` is
produced. -/
theorem no_worksheet_error (lc : Licenses)
    (h : lc.workbook.worksheets = []) :
    Licenses.rows lc = .error .worksheetAbsent ∧
      ∀ out, Licenses.rows lc ≠ .ok out := by
  have hrows : Licenses.rows lc = .error .worksheetAbsent := by
    unfold Licenses.rows; rw [h]
  exact ⟨hrows, fun out hok => by rw [hrows] at hok; cases hok⟩

theorem no_worksheet_error_witness :
    (({ region_name := "r", workbook := ⟨[]⟩ } : Licenses).workbook.worksheets
      = ([] : List Worksheet)) ∧
    Licenses.rows { region_name := "r", workbook := ⟨[]⟩ }
      = .error .worksheetAbsent := by
  exact ⟨rfl, (no_worksheet_error _ rfl).1⟩

/-! ### Claim C2 -/

theorem skipHeaderRows_cons (r : Row) (rs : List Row) (c : Option String)
    (cs : List (Option String)) (h : r.cells = c :: cs) :
    skipHeaderRows (r :: rs)
      = (if headerCellMatches c then .ok rs else skipHeaderRows rs) := by
  have e : skipHeaderRows (r :: rs)
      = (match r.cells with
         | [] => Except.error RowsError.indexError
         | c :: _ =>
           if headerCellMatches c then Except.ok rs
           else skipHeaderRows rs) := rfl
  rw [e, h]

theorem skipHeaderRows_append (pre : List Row) (hdr : Row) (post : List Row)
    (hpre : ∀ r ∈ pre, ∃ c cs, r.cells = c :: cs ∧ headerCellMatches c = false)
    (hhdr : ∃ c cs, hdr.cells = c :: cs ∧ headerCellMatches c = true) :
    skipHeaderRows (pre ++ hdr :: post) = .ok post := by
  induction pre with
  | nil =>
    obtain ⟨c, cs, hc, hm⟩ := hhdr
    rw [List.nil_append, skipHeaderRows_cons hdr post c cs hc, if_pos hm]
  | cons r rs ih =>
    obtain ⟨c, cs, hc, hm⟩ := hpre r (List.mem_cons_self r rs)
    rw [List.cons_append, skipHeaderRows_cons r _ c cs hc,
      if_neg (by rw [hm]; exact Bool.false_ne_true)]
    exact ih (fun r' hr' => hpre r' (List.mem_cons_of_mem r hr'))

theorem skipHeaderRows_no_header (rows : List Row)
    (h : ∀ r ∈ rows, ∃ c cs, r.cells = c :: cs ∧ headerCellMatches c = false) :
    skipHeaderRows rows = .ok [] := by
  induction rows with
  | nil => rfl
  | cons r rs ih =>
    obtain ⟨c, cs, hc, hm⟩ := h r (List.mem_cons_self r rs)
    rw [skipHeaderRows_cons r rs c cs hc,
      if_neg (by rw [hm]; exact Bool.false_ne_true)]
    exact ih (fun r' hr' => h r' (List.mem_cons_of_mem r hr'))

theorem mapRowsExcept_ok_forall₂ (rows : List Row)
    (out : List LicensesFileRow) (h : mapRowsExcept rows = .ok out) :
    List.Forall₂ (fun rw o => makeGisGkhRow rw = .ok o) rows out := by
  induction rows generalizing out with
  | nil =>
    injection h with h
    subst h
    exact List.Forall₂.nil
  | cons r rs ih =>
    unfold mapRowsExcept at h
    cases hm : makeGisGkhRow r <;> rw [hm] at h
    · cases h
    case ok x =>
      cases hrec : mapRowsExcept rs <;> rw [hrec] at h
      · cases h
      case ok xs =>
        injection h with h
        subst h
        exact List.Forall₂.cons hm (ih xs hrec)

theorem makeGisGkhRow_number (r : Row) (o : LicensesFileRow)
    (h : makeGisGkhRow r = .ok o) : o.number_in_file = r.idx := by
  obtain ⟨idx, cells⟩ := r
  cases cells with
  | nil => rw [makeGisGkhRow_nil] at h; cases h
  | cons c cs =>
    rw [makeGisGkhRow_cons] at h
    by_cases hl : ((c :: cs).take ((c :: cs).length - 2)).length > 21
    · rw [if_pos hl] at h; cases h
    · rw [if_neg hl] at h
      have hn := (postInit_ok_elim _ _ h).2.2.2.2.1
      rw [hn]
      rfl

theorem rows_eq_of_skip (lc : Licenses) (ws : Worksheet)
    (tail : List Worksheet) (rest : List Row)
    (h : lc.workbook.worksheets = ws :: tail)
    (hs : skipHeaderRows ws.rows = .ok rest) :
    Licenses.rows lc = mapRowsExcept rest := by
  unfold Licenses.rows
  simp only [h]
  rw [hs]

/-- C2: row production skips physical rows until (and including) the
first row whose first cell, trimmed and lowercased, equals
"номер лицензии"; each produced `LicenseRow` carries the physical sheet
index of the physical row it came from; with no header row anywhere the
whole sequence is consumed and zero rows are produced. -/
theorem header_skip_and_physical_row_numbers :
    (∀ (lc : Licenses) (ws : Worksheet) (tail : List Worksheet)
        (pre : List Row) (hdr : Row) (post : List Row)
        (out : List LicensesFileRow),
      lc.workbook.worksheets = ws :: tail →
      ws.rows = pre ++ hdr :: post →
      (∀ r ∈ pre, ∃ c cs, r.cells = c :: cs ∧ headerCellMatches c = false) →
      (∃ c cs, hdr.cells = c :: cs ∧ headerCellMatches c = true) →
      Licenses.rows lc = .ok out →
      out.length = post.length ∧
        ∀ (i : Nat) (h1 : i < post.length) (h2 : i < out.length),
          (out.get ⟨i, h2⟩).number_in_file = (post.get ⟨i, h1⟩).idx) ∧
    (∀ (lc : Licenses) (ws : Worksheet) (tail : List Worksheet),
      lc.workbook.worksheets = ws :: tail →
      (∀ r ∈ ws.rows, ∃ c cs, r.cells = c :: cs ∧ headerCellMatches c = false) →
      Licenses.rows lc = .ok []) := by
  constructor
  · intro lc ws tail pre hdr post out hws hsplit hpre hhdr hok
    have hskip : skipHeaderRows ws.rows = .ok post := by
      rw [hsplit]
      exact skipHeaderRows_append pre hdr post hpre hhdr
    rw [rows_eq_of_skip lc ws tail post hws hskip] at hok
    have hf := mapRowsExcept_ok_forall₂ post out hok
    refine ⟨hf.length_eq.symm, ?_⟩
    intro i h1 h2
    exact makeGisGkhRow_number _ _ ((List.forall₂_iff_get.mp hf).2 i h1 h2)
  · intro lc ws tail hws hall
    rw [rows_eq_of_skip lc ws tail [] hws
      (skipHeaderRows_no_header ws.rows hall)]
    rfl

def preW : List Row := [⟨1, [some "Реестр лицензий"]⟩, ⟨2, [some ""]⟩]

def hdrW : Row := ⟨3, [some "Номер лицензии"]⟩

def postW : List Row :=
  [⟨4, [some "a", some "x", some "y"]⟩, ⟨5, [some "b", some "x", some "y"]⟩]

def lcW : Licenses :=
  { region_name := "r", workbook := ⟨[⟨preW ++ hdrW :: postW⟩]⟩ }

def outW : List LicensesFileRow :=
  [{ (defaultRow 4) with license_number := some "a" },
   { (defaultRow 5) with license_number := some "b" }]

theorem header_skip_and_physical_row_numbers_witness :
    (lcW.workbook.worksheets = [⟨preW ++ hdrW :: postW⟩]) ∧
    (Licenses.rows lcW = .ok outW) ∧
    outW.length = postW.length ∧
    (outW.get ⟨0, by decide⟩).number_in_file = (postW.get ⟨0, by decide⟩).idx ∧
    (outW.get ⟨1, by decide⟩).number_in_file = (postW.get ⟨1, by decide⟩).idx
    := by
  have hok : Licenses.rows lcW = .ok outW := by decide
  have hpre : ∀ r ∈ preW,
      ∃ c cs, r.cells = c :: cs ∧ headerCellMatches c = false := by
    intro r hr
    simp only [preW, List.mem_cons, List.not_mem_nil, or_false] at hr
    rcases hr with rfl | rfl
    · exact ⟨some "Реестр лицензий", [], rfl, by decide⟩
    · exact ⟨some "", [], rfl, by decide⟩
  have hhdr : ∃ c cs, hdrW.cells = c :: cs ∧ headerCellMatches c = true :=
    ⟨some "Номер лицензии", [], rfl, by decide⟩
  have main := header_skip_and_physical_row_numbers.1 lcW
    ⟨preW ++ hdrW :: postW⟩ [] preW hdrW postW outW rfl rfl hpre hhdr hok
  exact ⟨rfl, hok, main.1,
    main.2 0 (by decide) (by decide), main.2 1 (by decide) (by decide)⟩

/-! ### Claim C4 -/

theorem validateRegionCodes_first_absent (table : Nat → Option String)
    (l₁ : List Nat) (c₀ : Nat) (l₂ : List Nat) (habs : table c₀ = none)
    (hpre : ∀ x ∈ l₁, (table x).isSome) :
    validateRegionCodes table (l₁ ++ c₀ :: l₂)
      = .error (.regionCodeIsAbsent c₀) := by
  induction l₁ with
  | nil =>
    rw [List.nil_append]
    unfold validateRegionCodes
    rw [habs]
  | cons x xs ih =>
    have hx := hpre x (List.mem_cons_self x xs)
    obtain ⟨nm, hnm⟩ := Option.isSome_iff_exists.mp hx
    rw [List.cons_append]
    unfold validateRegionCodes
    rw [hnm]
    exact ih (fun x' hx' => hpre x' (List.mem_cons_of_mem x hx'))

theorem validateRegionCodes_ok (table : Nat → Option String)
    (codes : List Nat) (hv : ∀ c ∈ codes, (table c).isSome) :
    validateRegionCodes table codes = .ok () := by
  induction codes with
  | nil => rfl
  | cons c cs ih =>
    obtain ⟨nm, hnm⟩ :=
      Option.isSome_iff_exists.mp (hv c (List.mem_cons_self c cs))
    unfold validateRegionCodes
    rw [hnm]
    exact ih (fun c' hc' => hv c' (List.mem_cons_of_mem c hc'))

theorem getLicenses_of_validate_error (table : Nat → Option String)
    (u : Nat → UidResponse) (d : String → String → DownloadResponse)
    (codes : List Nat) (e : ClientError)
    (h : validateRegionCodes table codes = .error e) :
    getLicenses table u d codes = (.error e, []) := by
  unfold getLicenses
  rw [h]

theorem getLicenses_of_uids_ok (table : Nat → Option String)
    (u : Nat → UidResponse) (d : String → String → DownloadResponse)
    (codes : List Nat) (uids : List (String × String)) (t1 : List NetRequest)
    (h : validateRegionCodes table codes = .ok ())
    (hu : getLicenseUids table u codes = (.ok uids, t1)) :
    getLicenses table u d codes
      = (.ok (getWorkbooksFromLicensesInfo (getLicensesInfo d uids).1),
         t1 ++ (getLicensesInfo d uids).2) := by
  unfold getLicenses
  rw [h, hu]

theorem getLicenseUidsAux_cons_eq (table : Nat → Option String)
    (resp : Nat → UidResponse) (c : Nat) (cs : List Nat)
    (acc : List (String × String)) :
    getLicenseUidsAux table resp (c :: cs) acc
      = (if (resp c).status ≠ 200 then
          ((getLicenseUidsAux table resp cs acc).1,
           NetRequest.licenseUid (formatRegionCode c)
             :: (getLicenseUidsAux table resp cs acc).2)
         else
           match table c with
           | none => (.error .keyError,
               [NetRequest.licenseUid (formatRegionCode c)])
           | some name =>
             ((getLicenseUidsAux table resp cs
                 (dictInsert name (resp c).text acc)).1,
              NetRequest.licenseUid (formatRegionCode c)
                :: (getLicenseUidsAux table resp cs
                     (dictInsert name (resp c).text acc)).2)) := rfl

theorem getLicenseUidsAux_cons_fail (table : Nat → Option String)
    (resp : Nat → UidResponse) (c : Nat) (cs : List Nat)
    (acc : List (String × String)) (h : (resp c).status ≠ 200) :
    getLicenseUidsAux table resp (c :: cs) acc
      = ((getLicenseUidsAux table resp cs acc).1,
         NetRequest.licenseUid (formatRegionCode c)
           :: (getLicenseUidsAux table resp cs acc).2) := by
  rw [getLicenseUidsAux_cons_eq, if_pos h]

theorem getLicenseUidsAux_cons_ok (table : Nat → Option String)
    (resp : Nat → UidResponse) (c : Nat) (cs : List Nat)
    (acc : List (String × String)) (name : String)
    (h : (resp c).status = 200) (ht : table c = some name) :
    getLicenseUidsAux table resp (c :: cs) acc
      = ((getLicenseUidsAux table resp cs
            (dictInsert name (resp c).text acc)).1,
         NetRequest.licenseUid (formatRegionCode c)
           :: (getLicenseUidsAux table resp cs
                (dictInsert name (resp c).text acc)).2) := by
  rw [getLicenseUidsAux_cons_eq,
    if_neg (show ¬(resp c).status ≠ 200 from fun hh => hh h), ht]

theorem getLicenseUidsAux_ok_of_valid (table : Nat → Option String)
    (resp : Nat → UidResponse) (codes : List Nat)
    (hv : ∀ c ∈ codes, (table c).isSome) :
    ∀ acc, ∃ m t, getLicenseUidsAux table resp codes acc = (.ok m, t) := by
  induction codes with
  | nil => exact fun acc => ⟨acc, [], rfl⟩
  | cons c cs ih =>
    intro acc
    have ihcs := ih (fun c' hc' => hv c' (List.mem_cons_of_mem c hc'))
    by_cases hs : (resp c).status = 200
    · obtain ⟨nm, hnm⟩ :=
        Option.isSome_iff_exists.mp (hv c (List.mem_cons_self c cs))
      obtain ⟨m, t, hmt⟩ := ihcs (dictInsert nm (resp c).text acc)
      refine ⟨m, NetRequest.licenseUid (formatRegionCode c) :: t, ?_⟩
      rw [getLicenseUidsAux_cons_ok table resp c cs acc nm hs hnm, hmt]
    · obtain ⟨m, t, hmt⟩ := ihcs acc
      refine ⟨m, NetRequest.licenseUid (formatRegionCode c) :: t, ?_⟩
      rw [getLicenseUidsAux_cons_fail table resp c cs acc hs, hmt]

/-- C4: a requested collection whose first table-absent code is `c₀`
makes `get_licenses` raise the region-not-found error naming `c₀` with
no network request issued and no partial result; when every requested
code is present, validation passes and retrieval proceeds to a
successful result. -/
theorem region_validation_all_or_nothing :
    (∀ (table : Nat → Option String) (u : Nat → UidResponse)
        (d : String → String → DownloadResponse)
        (l₁ : List Nat) (c₀ : Nat) (l₂ : List Nat),
      table c₀ = none → (∀ x ∈ l₁, (table x).isSome) →
      getLicenses table u d (l₁ ++ c₀ :: l₂)
        = (.error (.regionCodeIsAbsent c₀), [])) ∧
    (∀ (table : Nat → Option String) (u : Nat → UidResponse)
        (d : String → String → DownloadResponse) (codes : List Nat),
      (∀ c ∈ codes, (table c).isSome) →
      ∃ handles trace, getLicenses table u d codes = (.ok handles, trace))
    := by
  constructor
  · intro table u d l₁ c₀ l₂ habs hpre
    exact getLicenses_of_validate_error table u d _ _
      (validateRegionCodes_first_absent table l₁ c₀ l₂ habs hpre)
  · intro table u d codes hv
    obtain ⟨m, t, hmt⟩ := getLicenseUidsAux_ok_of_valid table u codes hv []
    exact ⟨getWorkbooksFromLicensesInfo (getLicensesInfo d m).1,
      t ++ (getLicensesInfo d m).2,
      getLicenses_of_uids_ok table u d codes m t
        (validateRegionCodes_ok table codes hv) hmt⟩

def tableW : Nat → Option String :=
  fun c => if c = 1 then some "adygeya" else if c = 2 then some "altai"
    else none

def uidRespW : Nat → UidResponse :=
  fun c => if c = 2 then ⟨200, "u2"⟩ else ⟨500, ""⟩

def dlRespW : String → String → DownloadResponse :=
  fun _ _ => ⟨200, ⟨[]⟩⟩

theorem region_validation_all_or_nothing_witness :
    tableW 3 = none ∧ (∀ x ∈ [1, 2], (tableW x).isSome) ∧
    getLicenses tableW uidRespW dlRespW ([1, 2] ++ 3 :: [2])
      = (.error (.regionCodeIsAbsent 3), []) := by
  refine ⟨by decide, by decide, ?_⟩
  exact region_validation_all_or_nothing.1 tableW uidRespW dlRespW
    [1, 2] 3 [2] (by decide) (by decide)

/-! ### Claim C5 -/

theorem hasKey_nil {α : Type} (k : String) :
    hasKey k ([] : List (String × α)) = false := rfl

theorem hasKey_dictInsert {α : Type} (k k' : String) (v : α)
    (m : List (String × α)) :
    hasKey k (dictInsert k' v m) = (k' == k || hasKey k m) := by
  induction m with
  | nil => simp [hasKey, dictInsert]
  | cons p rest ih =>
    obtain ⟨a, b⟩ := p
    by_cases ha : a = k'
    · subst ha
      simp [hasKey, dictInsert]
    · simp only [dictInsert, if_neg ha, hasKey, List.any_cons] at ih ⊢
      rw [ih]
      cases hak : a == k <;> simp

theorem getLicenseUidsAux_hasKey (table : Nat → Option String)
    (resp : Nat → UidResponse) (codes : List Nat)
    (hv : ∀ c ∈ codes, (table c).isSome) :
    ∀ acc m t, getLicenseUidsAux table resp codes acc = (.ok m, t) →
      ∀ name, hasKey name m = true ↔
        (hasKey name acc = true ∨
          ∃ c ∈ codes, table c = some name ∧ (resp c).status = 200) := by
  induction codes with
  | nil =>
    intro acc m t h name
    injection h with h1 _
    injection h1 with h1
    subst h1
    simp
  | cons c cs ih =>
    intro acc m t h name
    have ihcs := ih (fun c' hc' => hv c' (List.mem_cons_of_mem c hc'))
    by_cases hs : (resp c).status = 200
    · obtain ⟨nm, hnm⟩ :=
        Option.isSome_iff_exists.mp (hv c (List.mem_cons_self c cs))
      rw [getLicenseUidsAux_cons_ok table resp c cs acc nm hs hnm] at h
      injection h with h1 _
      obtain ⟨m', t', hmt⟩ :
          ∃ m' t', getLicenseUidsAux table resp cs
            (dictInsert nm (resp c).text acc) = (.ok m', t') := by
        cases hx : getLicenseUidsAux table resp cs
            (dictInsert nm (resp c).text acc) with
        | mk fst snd =>
          cases fst with
          | error e =>
            rw [hx] at h1
            cases h1
          | ok mm => exact ⟨mm, snd, rfl⟩
      rw [hmt] at h1
      injection h1 with h1
      subst h1
      have hrec := ihcs (dictInsert nm (resp c).text acc) m' _ hmt name
      rw [hrec, hasKey_dictInsert]
      constructor
      · rintro (hd | hx)
        · rcases Bool.or_eq_true _ _ |>.mp hd with hbe | hacc
          · exact Or.inr ⟨c, List.mem_cons_self c cs,
              by rw [hnm, eq_of_beq hbe], hs⟩
          · exact Or.inl hacc
        · obtain ⟨c', hc', hn', hs'⟩ := hx
          exact Or.inr ⟨c', List.mem_cons_of_mem c hc', hn', hs'⟩
      · rintro (hacc | ⟨c', hc', hn', hs'⟩)
        · exact Or.inl (by rw [hacc, Bool.or_true])
        · rcases List.mem_cons.mp hc' with rfl | hc'
          · refine Or.inl ?_
            have : nm = name := by
              rw [hnm] at hn'
              injection hn'
            rw [this]
            simp
          · exact Or.inr ⟨c', hc', hn', hs'⟩
    · rw [getLicenseUidsAux_cons_fail table resp c cs acc
        (fun hh => hs hh)] at h
      injection h with h1 _
      obtain ⟨m', t', hmt⟩ :
          ∃ m' t', getLicenseUidsAux table resp cs acc = (.ok m', t') := by
        cases hx : getLicenseUidsAux table resp cs acc with
        | mk fst snd =>
          cases fst with
          | error e =>
            rw [hx] at h1
            cases h1
          | ok mm => exact ⟨mm, snd, rfl⟩
      rw [hmt] at h1
      injection h1 with h1
      subst h1
      rw [ihcs acc m' _ hmt name]
      constructor
      · rintro (hacc | ⟨c', hc', hn', hs'⟩)
        · exact Or.inl hacc
        · exact Or.inr ⟨c', List.mem_cons_of_mem c hc', hn', hs'⟩
      · rintro (hacc | ⟨c', hc', hn', hs'⟩)
        · exact Or.inl hacc
        · rcases List.mem_cons.mp hc' with rfl | hc'
          · exact absurd hs' hs
          · exact Or.inr ⟨c', hc', hn', hs'⟩

theorem getLicensesInfoAux_cons_eq (dl : String → String → DownloadResponse)
    (region uid : String) (rest : List (String × String))
    (acc : List (String × ZipArchive)) :
    getLicensesInfoAux dl ((region, uid) :: rest) acc
      = ((getLicensesInfoAux dl rest
            (if (dl uid region).status ≠ 200 then acc
             else dictInsert region (dl uid region).content acc)).1,
         NetRequest.downloadInfo uid region
           :: (getLicensesInfoAux dl rest
                (if (dl uid region).status ≠ 200 then acc
                 else dictInsert region (dl uid region).content acc)).2)
    := rfl

theorem getLicensesInfoAux_hasKey (dl : String → String → DownloadResponse)
    (uids : List (String × String)) :
    ∀ acc name, hasKey name (getLicensesInfoAux dl uids acc).1 = true ↔
      (hasKey name acc = true ∨
        ∃ p ∈ uids, p.1 = name ∧ (dl p.2 p.1).status = 200) := by
  induction uids with
  | nil => intro acc name; simp [getLicensesInfoAux]
  | cons p rest ih =>
    obtain ⟨region, uid⟩ := p
    intro acc name
    rw [getLicensesInfoAux_cons_eq]
    by_cases hs : (dl uid region).status = 200
    · rw [if_neg (show ¬(dl uid region).status ≠ 200 from fun hh => hh hs)]
      rw [ih (dictInsert region (dl uid region).content acc) name,
        hasKey_dictInsert]
      constructor
      · rintro (hd | hx)
        · rcases Bool.or_eq_true _ _ |>.mp hd with hbe | hacc
          · exact Or.inr ⟨(region, uid), List.mem_cons_self _ rest,
              eq_of_beq hbe, hs⟩
          · exact Or.inl hacc
        · obtain ⟨q, hq, hn', hs'⟩ := hx
          exact Or.inr ⟨q, List.mem_cons_of_mem _ hq, hn', hs'⟩
      · rintro (hacc | ⟨q, hq, hn', hs'⟩)
        · exact Or.inl (by rw [hacc, Bool.or_true])
        · rcases List.mem_cons.mp hq with rfl | hq
          · refine Or.inl ?_
            have : region = name := hn'
            rw [this]
            simp
          · exact Or.inr ⟨q, hq, hn', hs'⟩
    · rw [if_pos (fun hh => hs hh), ih acc name]
      constructor
      · rintro (hacc | ⟨q, hq, hn', hs'⟩)
        · exact Or.inl hacc
        · exact Or.inr ⟨q, List.mem_cons_of_mem _ hq, hn', hs'⟩
      · rintro (hacc | ⟨q, hq, hn', hs'⟩)
        · exact Or.inl hacc
        · rcases List.mem_cons.mp hq with rfl | hq
          · exact absurd hs' hs
          · exact Or.inr ⟨q, hq, hn', hs'⟩

/-- C5: in the per-region uid lookup and in the per-region archive
download, a non-200 response for one region only excludes that region
from the resulting name-keyed mapping; the mapping holds exactly the
regions whose response was 200, and the other regions are unaffected. -/
theorem per_region_failures_isolated :
    (∀ (table : Nat → Option String) (resp : Nat → UidResponse)
        (codes : List Nat) m t,
      (∀ c ∈ codes, (table c).isSome) →
      getLicenseUids table resp codes = (.ok m, t) →
      ∀ name, hasKey name m = true ↔
        ∃ c ∈ codes, table c = some name ∧ (resp c).status = 200) ∧
    (∀ (dl : String → String → DownloadResponse)
        (uids : List (String × String)) (name : String),
      hasKey name (getLicensesInfo dl uids).1 = true ↔
        ∃ p ∈ uids, p.1 = name ∧ (dl p.2 p.1).status = 200) := by
  constructor
  · intro table resp codes m t hv h name
    rw [getLicenseUidsAux_hasKey table resp codes hv [] m t h name]
    simp [hasKey_nil]
  · intro dl uids name
    have e : getLicensesInfo dl uids = getLicensesInfoAux dl uids [] := rfl
    rw [e, getLicensesInfoAux_hasKey dl uids [] name]
    simp [hasKey_nil]

theorem per_region_failures_isolated_witness :
    (∀ c ∈ [1, 2], (tableW c).isSome) ∧
    getLicenseUids tableW uidRespW [1, 2]
      = (.ok [("altai", "u2")],
         [NetRequest.licenseUid "01", NetRequest.licenseUid "02"]) ∧
    (hasKey "altai" [("altai", "u2")] = true ↔
      ∃ c ∈ [1, 2], tableW c = some "altai" ∧ (uidRespW c).status = 200)
    := by
  have h : getLicenseUids tableW uidRespW [1, 2]
      = (.ok [("altai", "u2")],
         [NetRequest.licenseUid "01", NetRequest.licenseUid "02"]) := by
    decide
  exact ⟨by decide, h,
    per_region_failures_isolated.1 tableW uidRespW [1, 2] _ _ (by decide) h
      "altai"⟩

/-! ### Claim C8 -/

def wbA : Workbook := ⟨[]⟩

def wbB : Workbook := ⟨[⟨[]⟩]⟩

def twoXlsxInfo : List (String × ZipArchive) :=
  [("r", ⟨[⟨"a.xlsx", wbA⟩, ⟨"b.xlsx", wbB⟩]⟩)]

/-- C8 (counterexample): an archive holding two members named with the
spreadsheet extension yields two workbook–region pairs — both members
are consumed, not only the first, so the primary path does not yield
exactly one pair per archive. -/
theorem two_xlsx_members_two_pairs :
    getWorkbooksFromLicensesInfo twoXlsxInfo
      = [{ region_name := "r", workbook := wbA },
         { region_name := "r", workbook := wbB }] ∧
    (getWorkbooksFromLicensesInfo twoXlsxInfo).length ≠ 1 := by
  exact ⟨by decide, by decide⟩

/-- C8 (amended): the workbook extractor consumes every archive member
whose name ends in the spreadsheet extension, yielding one
workbook–region pair per such member (an archive with n matching
members yields n pairs). -/
theorem workbooks_one_pair_per_xlsx_member
    (info : List (String × ZipArchive)) :
    (getWorkbooksFromLicensesInfo info).length
      = (info.map (fun p =>
          (p.2.members.filter (fun m => pyEndsWith m.name ".xlsx")).length)).sum
    := by
  induction info with
  | nil => rfl
  | cons p rest ih =>
    have e : getWorkbooksFromLicensesInfo (p :: rest)
        = (p.2.members.filter (fun m => pyEndsWith m.name ".xlsx")).map
            (fun m => { region_name := p.1, workbook := m.workbook })
          ++ getWorkbooksFromLicensesInfo rest := by
      simp [getWorkbooksFromLicensesInfo]
    rw [e, List.length_append, List.length_map, ih, List.map_cons,
      List.sum_cons]

def table201 : Nat → Option String :=
  fun c => if c = 1 then some "adygeya" else none

def uidResp201 : Nat → UidResponse := fun _ => ⟨201, "u1"⟩

def dlResp201 : String → String → DownloadResponse := fun _ _ => ⟨204, ⟨[]⟩⟩

/-- C5 (counterexample): a 201 uid-lookup response and a 204 download
response are successful (2xx) responses, yet both steps exclude the
region from their result mapping — the code keeps a region only when
the status is exactly 200, so the mapping does not cover every region
whose response was a 2xx success. -/
theorem twoxx_not_200_regions_excluded :
    (200 ≤ (uidResp201 1).status ∧ (uidResp201 1).status < 300 ∧
      getLicenseUids table201 uidResp201 [1]
        = (.ok [], [NetRequest.licenseUid "01"])) ∧
    (200 ≤ (dlResp201 "u" "adygeya").status ∧
      (dlResp201 "u" "adygeya").status < 300 ∧
      (getLicensesInfo dlResp201 [("adygeya", "u")]).1 = []) := by decide

end Gosuslugi
